import Mathlib

/-!
Shallow embedding of the AIOps realtime-monitor pipeline
(window manager, z-score / change-point / comprehensive detectors,
feature engineering, alert manager) and verification of its
specification claims.

Numeric values of the Python source (floats) are modelled as exact
rationals; `np.std`-style square roots are modelled over the reals.
Python dicts with a fixed key set are modelled as structures; a key
that may be absent is an `Option` field.
-/

/-- A Python scalar that may sit in an event field: a number
(int/float, modelled as an exact rational) or a non-numeric value
(modelled by its string rendering). -/
inductive PyVal where
  | pnum (q : ℚ)
  | pstr (s : String)
deriving DecidableEq

/-- Rendering of a numeric value to a string (Python str()).  The exact
float rendering is abstracted by the canonical rational rendering; it is
injective, which is all the fingerprint logic relies on. -/
def ratStr (q : ℚ) : String := toString q

/-- Python str() of a value. -/
def pyValStr : PyVal → String
  | .pnum q => ratStr q
  | .pstr s => s

/-- Python str() of a bool. -/
def pyBoolStr (b : Bool) : String := if b then "True" else "False"

/-- Rounding to the nearest integer, ties to even (the rounding used by
Python % .2f formatting, modelled on exact rationals). -/
def roundHalfEven (q : ℚ) : ℤ :=
  let f : ℤ := ⌊q⌋
  let r : ℚ := q - f
  if r < 1/2 then f
  else if 1/2 < r then f + 1
  else if f % 2 = 0 then f else f + 1

/-- Python f-string formatting with two decimal places (`.2f`),
on exact rationals. -/
def fmt2 (q : ℚ) : String :=
  let n : ℤ := roundHalfEven (q * 100)
  let a : ℕ := n.natAbs
  let ip : ℕ := a / 100
  let fr : ℕ := a % 100
  (if n < 0 then "-" else "") ++ toString ip ++ "." ++
    (if fr < 10 then "0" else "") ++ toString fr

/-- Appending to a `collections.deque` with a `maxlen` bound: the new
element goes to the right, oldest elements are evicted from the left
when the bound is exceeded. -/
def dequeAppend {α : Type} (maxlen : ℕ) (l : List α) (x : α) : List α :=
  let l2 := l ++ [x]
  if maxlen < l2.length then l2.drop (l2.length - maxlen) else l2

/-- np.mean of a list of rationals (0 on the empty list, as 0/0 = 0). -/
def npMean (xs : List ℚ) : ℚ := xs.sum / xs.length

/-- The (population) variance np.std squares: mean of squared
deviations from the mean. -/
def npVar (xs : List ℚ) : ℚ := npMean (xs.map (fun x => (x - npMean xs) ^ 2))

/-- np.std over the reals: the square root of the population variance. -/
noncomputable def npStd (xs : List ℚ) : ℝ := Real.sqrt (npVar xs)

/-! ## Alert manager (src/src/alert/alert_manager.py) -/

/-- The changepoint entry that may sit under detection_result["details"]
(read by _generate_message). -/
structure CpInfo where
  has_changepoint : Bool
  changepoint_type : Option String
deriving DecidableEq

/-- detection_result["details"]: only its optional changepoint entry is
ever read by the alert manager. -/
structure DetDetails where
  changepoint : Option CpInfo := none
deriving DecidableEq

/-- A detection result handed to AlertManager.create_alert.  The three
keys are always produced by the detector managers; their code defaults
(False / 0.0 / "unknown") are the values a caller omitting them gets. -/
structure DetectionResult where
  is_anomaly : Bool := false
  anomaly_score : ℚ := 0
  method : String := "unknown"
  details : DetDetails := {}
deriving DecidableEq

/-- An event as seen by the alert manager; a `none` field is an absent
key.  `Option Event = none` models an absent (or Python-falsy) event
argument. -/
structure Event where
  status_code : Option PyVal := none
  endpoint : Option String := none
  timestamp : Option String := none
deriving DecidableEq

/-- The "event" sub-dictionary stored in alert details
(create_alert lines 173-178); values are stored rendered. -/
structure EventDetails where
  endpoint : String
  status_code : String
  timestamp : String
deriving DecidableEq

/-- The details dictionary built by create_alert (lines 166-178); the
four fixed keys are always present, the event sub-dictionary only when
an event was passed. -/
structure AlertDetails where
  anomaly_score : ℚ
  is_anomaly : Bool
  method : String
  detection_details : DetDetails
  event : Option EventDetails
deriving DecidableEq

/-- An Alert object.  The wall-clock timestamp a fresh alert is stamped
with is irrelevant to every claim and is omitted from the model. -/
structure Alert where
  level : String
  message : String
  details : AlertDetails
  acknowledged : Bool := false
deriving DecidableEq

/-- The mutable state of an AlertManager. -/
structure AlertState where
  max_alerts : ℕ := 1000
  alert_threshold : ℚ := 7/10
  alerts : List Alert := []
  recent_alert_hashes : List String := []
deriving DecidableEq

/-- AlertManager._generate_alert_hash.  In create_alert the details
dictionary always carries both the is_anomaly and anomaly_score keys,
so both conditional parts are always appended. -/
def generateAlertHash (message : String) (details : AlertDetails) : String :=
  message ++ "|" ++ pyBoolStr details.is_anomaly ++ "|" ++ fmt2 details.anomaly_score

/-- AlertManager._determine_level. -/
def determineLevel (anomaly_score : ℚ) (is_anomaly : Bool) : String :=
  if is_anomaly = false then "info"
  else if 9/10 ≤ anomaly_score then "critical"
  else if 7/10 ≤ anomaly_score then "warning"
  else "info"

/-- The canonical status message table of _generate_message. -/
def statusMessages (q : ℚ) : Option String :=
  if q = 400 then some "Bad Request"
  else if q = 401 then some "Unauthorized"
  else if q = 403 then some "Forbidden"
  else if q = 404 then some "Not Found"
  else if q = 408 then some "Request Timeout"
  else if q = 418 then some "I\x27m a teapot"
  else if q = 500 then some "Internal Server Error"
  else if q = 502 then some "Bad Gateway"
  else if q = 503 then some "Service Unavailable"
  else if q = 504 then some "Gateway Timeout"
  else none

/-- The numeric HTTP-error status of the optional event, when it has
one: event.get("status_code", 200) is numeric and at least 400
(create_alert lines 146-153 and _generate_message lines 216-218). -/
def httpErrorStatus (e : Option Event) : Option ℚ :=
  match e with
  | none => none
  | some ev =>
    match ev.status_code.getD (PyVal.pnum 200) with
    | .pnum q => if 400 ≤ q then some q else none
    | .pstr _ => none

/-- AlertManager._generate_message. -/
def generateMessage (d : DetectionResult) (e : Option Event) : String :=
  match httpErrorStatus e with
  | some q =>
    let endpoint := (e.bind Event.endpoint).getD "unknown"
    let statusMsg := (statusMessages q).getD ("HTTP " ++ ratStr q)
    "[" ++ endpoint ++ "] HTTP 에러 발생: " ++ ratStr q ++ " " ++ statusMsg
  | none =>
    let base :=
      "이상 탐지됨 (점수: " ++ fmt2 d.anomaly_score ++ ", 방법: " ++ d.method ++ ")"
    let base :=
      match e with
      | some ev =>
        "[" ++ ev.endpoint.getD "unknown" ++ "] " ++ base ++ " (상태: " ++
          (match ev.status_code with
           | some v => pyValStr v
           | none => "unknown") ++ ")"
      | none => base
    match d.details.changepoint with
    | some cp =>
      if cp.has_changepoint then
        base ++ " | 변화점: " ++ cp.changepoint_type.getD "unknown"
      else base
    | none => base

/-- The final is_anomaly create_alert works with, after the HTTP-error
override (lines 142-153). -/
def finalIsAnomaly (d : DetectionResult) (e : Option Event) : Bool :=
  if (httpErrorStatus e).isSome then true else d.is_anomaly

/-- The final anomaly_score create_alert works with, after the
HTTP-error override (lines 142-153). -/
def finalScore (d : DetectionResult) (e : Option Event) : ℚ :=
  match httpErrorStatus e with
  | some q => if 500 ≤ q then 1 else 4/5
  | none => d.anomaly_score

/-- The event sub-dictionary of the alert details (lines 173-178). -/
def eventDetailsOf (ev : Event) : EventDetails :=
  { endpoint := ev.endpoint.getD "unknown"
    status_code :=
      match ev.status_code with
      | some v => pyValStr v
      | none => "unknown"
    timestamp := ev.timestamp.getD "unknown" }

/-- The details dictionary create_alert builds (lines 166-178). -/
def createAlertDetails (d : DetectionResult) (e : Option Event) : AlertDetails :=
  { anomaly_score := finalScore d e
    is_anomaly := finalIsAnomaly d e
    method := d.method
    detection_details := d.details
    event := e.map eventDetailsOf }

/-- The fingerprint create_alert deduplicates on (lines 180-181); it
depends only on the detection result and the event, not on manager
state. -/
def createAlertFingerprint (d : DetectionResult) (e : Option Event) : String :=
  generateAlertHash (generateMessage d e) (createAlertDetails d e)

/-- AlertManager.create_alert: returns the created alert (or none) and
the successor manager state. -/
def createAlert (s : AlertState) (d : DetectionResult) (e : Option Event) :
    Option Alert × AlertState :=
  let is_http_error := (httpErrorStatus e).isSome
  let is_anomaly := finalIsAnomaly d e
  let anomaly_score := finalScore d e
  if is_http_error = false ∧ (is_anomaly = false ∨ anomaly_score < s.alert_threshold) then
    (none, s)
  else
    let message := generateMessage d e
    let level := determineLevel anomaly_score is_anomaly
    let details := createAlertDetails d e
    let alert_hash := generateAlertHash message details
    if alert_hash ∈ s.recent_alert_hashes then
      (none, s)
    else
      let alert : Alert :=
        { level := level, message := message, details := details, acknowledged := false }
      (some alert,
       { s with
         alerts := dequeAppend s.max_alerts s.alerts alert
         recent_alert_hashes := dequeAppend 100 s.recent_alert_hashes alert_hash })

/-! ## Basic lemmas about the bounded deque -/

theorem dequeAppend_length {α : Type} (m : ℕ) (l : List α) (x : α) :
    (dequeAppend m l x).length = min (l.length + 1) m := by
  simp only [dequeAppend]
  split
  · rename_i h
    simp only [List.length_append, List.length_cons, List.length_nil] at h
    simp only [List.length_drop, List.length_append, List.length_cons, List.length_nil]
    omega
  · rename_i h
    simp only [List.length_append, List.length_cons, List.length_nil] at h
    simp only [List.length_append, List.length_cons, List.length_nil]
    omega

theorem mem_dequeAppend_self {α : Type} (m : ℕ) (hm : 0 < m) (l : List α) (x : α) :
    x ∈ dequeAppend m l x := by
  simp only [dequeAppend]
  split
  · rename_i h
    have hle : l.length + 1 - m ≤ l.length := by
      simp only [List.length_append, List.length_cons, List.length_nil] at h
      omega
    rw [List.drop_append_of_le_length (by simpa using hle)]
    simp
  · simp

/-! ## Theorems about AlertManager.create_alert -/

theorem createAlert_of_http_error (s : AlertState) (d : DetectionResult) (e : Event)
    (q : ℚ) (hsc : e.status_code = some (PyVal.pnum q)) (hq : 400 ≤ q) :
    (createAlertFingerprint d (some e) ∈ s.recent_alert_hashes →
        createAlert s d (some e) = (none, s)) ∧
    (createAlertFingerprint d (some e) ∉ s.recent_alert_hashes →
      ∃ a, createAlert s d (some e) =
          (some a,
           { s with
             alerts := dequeAppend s.max_alerts s.alerts a
             recent_alert_hashes :=
               dequeAppend 100 s.recent_alert_hashes (createAlertFingerprint d (some e)) }) ∧
        a.details.is_anomaly = true ∧
        a.details.anomaly_score = (if 500 ≤ q then 1 else 4/5)) := by
  have hhttp : httpErrorStatus (some e) = some q := by
    simp [httpErrorStatus, hsc, hq]
  constructor
  · intro hmem
    simp only [createAlertFingerprint] at hmem
    simp [createAlert, finalIsAnomaly, hhttp, hmem]
  · intro hmem
    simp only [createAlertFingerprint] at hmem
    refine ⟨{ level := determineLevel (finalScore d (some e)) (finalIsAnomaly d (some e))
              message := generateMessage d (some e)
              details := createAlertDetails d (some e)
              acknowledged := false }, ?_, ?_, ?_⟩
    · simp [createAlert, finalIsAnomaly, hhttp, hmem, createAlertFingerprint]
    · simp [createAlertDetails, finalIsAnomaly, hhttp]
    · simp [createAlertDetails, finalScore, hhttp]

theorem createAlert_threshold_gate (s : AlertState) (d : DetectionResult)
    (e : Option Event) (hne : httpErrorStatus e = none)
    (hgate : d.is_anomaly = false ∨ d.anomaly_score < s.alert_threshold) :
    createAlert s d e = (none, s) := by
  simp only [createAlert, finalIsAnomaly, finalScore, hne, Option.isSome_none]
  rw [if_pos]
  exact ⟨trivial, hgate⟩

theorem createAlert_none_leaves_state_unchanged (s : AlertState) (d : DetectionResult)
    (e : Option Event) (h : (createAlert s d e).1 = none) :
    (createAlert s d e).2 = s := by
  simp only [createAlert] at h ⊢
  split at h
  · split
    · rfl
    · simp_all
  · split at h
    · split
      · simp_all
      · rfl
    · simp at h

theorem createAlert_severity_mapping (s s₂ : AlertState) (d : DetectionResult)
    (e : Option Event) (a : Alert) (h : createAlert s d e = (some a, s₂)) :
    (a.details.is_anomaly = false → a.level = "info") ∧
    (a.details.is_anomaly = true →
      ((9/10 ≤ a.details.anomaly_score → a.level = "critical") ∧
       (7/10 ≤ a.details.anomaly_score ∧ a.details.anomaly_score < 9/10 →
          a.level = "warning") ∧
       (a.details.anomaly_score < 7/10 → a.level = "info"))) := by
  have ha : a.level = determineLevel a.details.anomaly_score a.details.is_anomaly := by
    simp only [createAlert] at h
    split at h
    · simp at h
    · split at h
      · simp at h
      · have h1 : a = { level := determineLevel (finalScore d e) (finalIsAnomaly d e)
                        message := generateMessage d e
                        details := createAlertDetails d e
                        acknowledged := false } := by
          have := congrArg Prod.fst h
          simp at this
          exact this.symm
        rw [h1]
        simp [createAlertDetails]
  rw [ha]
  constructor
  · intro hb
    simp [determineLevel, hb]
  · intro hb
    refine ⟨?_, ?_, ?_⟩
    · intro hs
      simp [determineLevel, hb, hs]
    · intro hs
      have : ¬ (9/10 ≤ a.details.anomaly_score) := by linarith [hs.2]
      simp [determineLevel, hb, hs.1, this]
    · intro hs
      have h9 : ¬ (9/10 ≤ a.details.anomaly_score) := by linarith
      have h7 : ¬ (7/10 ≤ a.details.anomaly_score) := by linarith
      simp [determineLevel, hb, h9, h7]

theorem createAlert_duplicate_dropped (s : AlertState) (d : DetectionResult)
    (e : Option Event)
    (hmem : createAlertFingerprint d e ∈ s.recent_alert_hashes) :
    createAlert s d e = (none, s) := by
  simp only [createAlertFingerprint] at hmem
  simp [createAlert, hmem]

theorem createAlert_fingerprint_dedup (s s₂ : AlertState) (d : DetectionResult)
    (e : Option Event) (a : Alert) :
    (createAlertFingerprint d e ∈ s.recent_alert_hashes →
        createAlert s d e = (none, s)) ∧
    (createAlert s d e = (some a, s₂) →
      createAlertFingerprint d e =
          a.message ++ "|" ++ pyBoolStr a.details.is_anomaly ++ "|" ++
            fmt2 a.details.anomaly_score ∧
      s₂.recent_alert_hashes =
          dequeAppend 100 s.recent_alert_hashes (createAlertFingerprint d e) ∧
      (s.recent_alert_hashes.length ≤ 100 → s₂.recent_alert_hashes.length ≤ 100) ∧
      (createAlert s₂ d e).1 = none) := by
  constructor
  · intro hmem
    exact createAlert_duplicate_dropped s d e hmem
  · intro h
    simp only [createAlert] at h
    split at h
    · simp at h
    · rename_i hgate
      split at h
      · simp at h
      · rename_i hmem
        have ha : a = { level := determineLevel (finalScore d e) (finalIsAnomaly d e)
                        message := generateMessage d e
                        details := createAlertDetails d e
                        acknowledged := false } := by
          have := congrArg Prod.fst h
          simp at this
          exact this.symm
        have hs₂ : s₂ = { s with
            alerts := dequeAppend s.max_alerts s.alerts a
            recent_alert_hashes :=
              dequeAppend 100 s.recent_alert_hashes (createAlertFingerprint d e) } := by
          have := congrArg Prod.snd h
          simp at this
          rw [← this, ha]
          simp [createAlertFingerprint]
        refine ⟨?_, ?_, ?_, ?_⟩
        · rw [ha]
          simp [createAlertFingerprint, generateAlertHash]
        · rw [hs₂]
        · intro hlen
          rw [hs₂]
          simp only [dequeAppend_length]
          omega
        · have hmem2 : createAlertFingerprint d e ∈ s₂.recent_alert_hashes := by
            rw [hs₂]
            simpa using mem_dequeAppend_self 100 (by norm_num)
              s.recent_alert_hashes (createAlertFingerprint d e)
          rw [createAlert_duplicate_dropped s₂ d e hmem2]

theorem createAlert_of_http_error_witness :
    ∃ a, (createAlert {} {} (some { status_code := some (PyVal.pnum 500) })).1 = some a ∧
      a.details.is_anomaly = true ∧ a.details.anomaly_score = 1 := by
  obtain ⟨a, heq, hia, hsc⟩ :=
    (createAlert_of_http_error {} {} { status_code := some (PyVal.pnum 500) } 500
      rfl (by decide)).2 (by simp)
  exact ⟨a, by rw [heq], hia, by simpa using hsc⟩

theorem createAlert_success (s : AlertState) (d : DetectionResult) (e : Option Event)
    (hgate : ¬((httpErrorStatus e).isSome = false ∧
        (finalIsAnomaly d e = false ∨ finalScore d e < s.alert_threshold)))
    (hmem : createAlertFingerprint d e ∉ s.recent_alert_hashes) :
    createAlert s d e =
      (some { level := determineLevel (finalScore d e) (finalIsAnomaly d e)
              message := generateMessage d e
              details := createAlertDetails d e
              acknowledged := false },
       { s with
         alerts := dequeAppend s.max_alerts s.alerts
             { level := determineLevel (finalScore d e) (finalIsAnomaly d e)
               message := generateMessage d e
               details := createAlertDetails d e
               acknowledged := false }
         recent_alert_hashes :=
           dequeAppend 100 s.recent_alert_hashes (createAlertFingerprint d e) }) := by
  simp only [createAlertFingerprint] at hmem
  simp only [createAlert, createAlertFingerprint]
  rw [if_neg hgate, if_neg hmem]

theorem createAlert_threshold_gate_witness :
    createAlert {} { anomaly_score := 1/2 } none = (none, {}) :=
  createAlert_threshold_gate {} { anomaly_score := 1/2 } none rfl (Or.inl rfl)

theorem createAlert_none_leaves_state_unchanged_witness :
    (createAlert {} { anomaly_score := 1/2 } none).2 = {} :=
  createAlert_none_leaves_state_unchanged {} { anomaly_score := 1/2 } none
    (by simp [createAlert, finalIsAnomaly, httpErrorStatus])

theorem createAlert_severity_mapping_witness :
    ((createAlert {} { is_anomaly := true, anomaly_score := 19/20 } none).1.map
        Alert.level) = some "critical" := by
  have hgate : ¬((httpErrorStatus (none : Option Event)).isSome = false ∧
      (finalIsAnomaly { is_anomaly := true, anomaly_score := 19/20 } none = false ∨
        finalScore { is_anomaly := true, anomaly_score := 19/20 } none <
          (({} : AlertState)).alert_threshold)) := by
    simp [finalIsAnomaly, finalScore, httpErrorStatus]
    norm_num
  have hc := createAlert_success {} { is_anomaly := true, anomaly_score := 19/20 } none
    hgate (by simp)
  have h := createAlert_severity_mapping {} _
    { is_anomaly := true, anomaly_score := 19/20 } none _ hc
  have hia : (createAlertDetails
      { is_anomaly := true, anomaly_score := 19/20 } none).is_anomaly = true := by
    simp [createAlertDetails, finalIsAnomaly, httpErrorStatus]
  have hsc : (9:ℚ)/10 ≤ (createAlertDetails
      { is_anomaly := true, anomaly_score := 19/20 } none).anomaly_score := by
    simp only [createAlertDetails, finalScore, httpErrorStatus]
    norm_num
  rw [hc]
  have hl := (h.2 hia).1 hsc
  simpa using hl

theorem createAlert_fingerprint_dedup_witness :
    (createAlert
        (createAlert {} { is_anomaly := true, anomaly_score := 19/20 } none).2
        { is_anomaly := true, anomaly_score := 19/20 } none).1 = none := by
  have hgate : ¬((httpErrorStatus (none : Option Event)).isSome = false ∧
      (finalIsAnomaly { is_anomaly := true, anomaly_score := 19/20 } none = false ∨
        finalScore { is_anomaly := true, anomaly_score := 19/20 } none <
          (({} : AlertState)).alert_threshold)) := by
    simp [finalIsAnomaly, finalScore, httpErrorStatus]
    norm_num
  have hc := createAlert_success {} { is_anomaly := true, anomaly_score := 19/20 } none
    hgate (by simp)
  have h := (createAlert_fingerprint_dedup {} _
    { is_anomaly := true, anomaly_score := 19/20 } none _).2 hc
  rw [hc]
  exact h.2.2.2

/-! ## Window manager (src/src/processing/window_manager.py) -/

/-- The WindowManager state relevant to the main event ring.  Events are
abstract here (`add_event` only stamps a missing timestamp on the event
itself, which does not affect the ring); source defaults are
window_size=100, max_size=10000.  The named secondary windows are not
touched by add_event and are omitted. -/
structure WindowManagerState (α : Type) where
  window_size : ℕ := 100
  max_size : ℕ := 10000
  data_buffer : List α := []

/-- WindowManager.add_event: append to the bounded main ring. -/
def addEvent {α : Type} (w : WindowManagerState α) (ev : α) : WindowManagerState α :=
  { w with data_buffer := dequeAppend w.max_size w.data_buffer ev }

/-- Feeding a whole event sequence through add_event. -/
def addEvents {α : Type} (w : WindowManagerState α) (evs : List α) : WindowManagerState α :=
  evs.foldl addEvent w

theorem addEvents_max_size {α : Type} (w : WindowManagerState α) (evs : List α) :
    (addEvents w evs).max_size = w.max_size := by
  induction evs generalizing w with
  | nil => rfl
  | cons e t ih => exact ih (addEvent w e)

theorem addEvents_length {α : Type} (w : WindowManagerState α) (evs : List α)
    (hw : w.data_buffer.length ≤ w.max_size) :
    (addEvents w evs).data_buffer.length =
      min (w.data_buffer.length + evs.length) w.max_size := by
  induction evs generalizing w with
  | nil =>
    simp only [addEvents, List.foldl_nil, List.length_nil]
    omega
  | cons e t ih =>
    have hm : (addEvent w e).max_size = w.max_size := rfl
    have step : (addEvent w e).data_buffer.length =
        min (w.data_buffer.length + 1) w.max_size := by
      simp [addEvent, dequeAppend_length]
    have hle : (addEvent w e).data_buffer.length ≤ (addEvent w e).max_size := by
      rw [step, hm]
      omega
    have h2 := ih (addEvent w e) hle
    show (addEvents (addEvent w e) t).data_buffer.length = _
    rw [h2, hm, step]
    simp only [List.length_cons]
    omega

/-! ## Z-score detector history (src/src/anomaly/zscore_detector.py) -/

/-- The history mutation performed by ZScoreDetector.predict (lines
45-66): with fewer than 2 samples, or with zero standard deviation
(equivalently zero variance), the value is appended without any
eviction; otherwise the value is appended and one oldest element is
popped when the window size is exceeded. -/
def zscoreHistUpdate (window_size : ℕ) (history : List ℚ) (value : ℚ) : List ℚ :=
  if history.length < 2 then history ++ [value]
  else if npVar history = 0 then history ++ [value]
  else
    let h2 := history ++ [value]
    if window_size < h2.length then h2.drop 1 else h2

/-- Feeding a value sequence through predict, tracking the history. -/
def zscoreHistRun (window_size : ℕ) (values : List ℚ) : List ℚ :=
  values.foldl (zscoreHistUpdate window_size) []

theorem npVar_nonneg (xs : List ℚ) : 0 ≤ npVar xs := by
  unfold npVar npMean
  apply div_nonneg
  · apply List.sum_nonneg
    intro x hx
    simp only [List.mem_map] at hx
    obtain ⟨y, _, rfl⟩ := hx
    positivity
  · positivity

/-- The source tests np.std(history) == 0; this is equivalent to the
variance being 0, which is how the embedding states the test. -/
theorem npStd_eq_zero_iff (xs : List ℚ) : npStd xs = 0 ↔ npVar xs = 0 := by
  unfold npStd
  rw [Real.sqrt_eq_zero (by exact_mod_cast npVar_nonneg xs)]
  constructor
  · intro h
    exact_mod_cast h
  · intro h
    exact_mod_cast h

theorem createAlert_preserves_max_alerts (s : AlertState) (d : DetectionResult)
    (e : Option Event) : (createAlert s d e).2.max_alerts = s.max_alerts := by
  simp only [createAlert]
  split
  · rfl
  · split
    · rfl
    · rfl

theorem createAlert_alerts_length_le (s : AlertState) (d : DetectionResult)
    (e : Option Event) (h : s.alerts.length ≤ s.max_alerts) :
    (createAlert s d e).2.alerts.length ≤ s.max_alerts := by
  simp only [createAlert]
  split
  · exact h
  · split
    · exact h
    · show (dequeAppend s.max_alerts s.alerts _).length ≤ s.max_alerts
      rw [dequeAppend_length]
      omega

theorem alertFold_invariant (ops : List (DetectionResult × Option Event))
    (s : AlertState) (h : s.alerts.length ≤ s.max_alerts) :
    (ops.foldl (fun s p => (createAlert s p.1 p.2).2) s).alerts.length ≤ s.max_alerts ∧
    (ops.foldl (fun s p => (createAlert s p.1 p.2).2) s).max_alerts = s.max_alerts := by
  induction ops generalizing s with
  | nil => exact ⟨h, rfl⟩
  | cons p t ih =>
    have h1 : (createAlert s p.1 p.2).2.alerts.length ≤ (createAlert s p.1 p.2).2.max_alerts := by
      rw [createAlert_preserves_max_alerts]
      exact createAlert_alerts_length_le s p.1 p.2 h
    have h2 := ih (createAlert s p.1 p.2).2 h1
    simp only [List.foldl_cons]
    rw [h2.2, createAlert_preserves_max_alerts] at *
    exact ⟨h2.1, rfl⟩

/-- C4 (amended): for any event sequence of length N the main ring
holds exactly min(N, max_size) events with the source default
max_size = 10000 (not 1000); the alert ring never exceeds 1000 (the
default max_alerts); and the Z-Score history respects its configured
capacity on the normal predict path (at least 2 samples and nonzero
variance) — the degenerate append path does not evict (see the
counterexample). -/
theorem bounded_memory_amended :
    (∀ (evs : List ℕ),
        (addEvents ({} : WindowManagerState ℕ) evs).data_buffer.length =
          min evs.length 10000) ∧
    (∀ (ops : List (DetectionResult × Option Event)),
        (ops.foldl (fun s p => (createAlert s p.1 p.2).2)
            ({} : AlertState)).alerts.length ≤ 1000) ∧
    (∀ (ws : ℕ) (h : List ℚ) (v : ℚ), h.length ≤ ws → 2 ≤ h.length → npVar h ≠ 0 →
        (zscoreHistUpdate ws h v).length ≤ ws) := by
  refine ⟨?_, ?_, ?_⟩
  · intro evs
    rw [addEvents_length _ _ (by simp)]
    simp
  · intro ops
    exact (alertFold_invariant ops {} (by simp)).1
  · intro ws h v h1 h2 h3
    simp only [zscoreHistUpdate]
    rw [if_neg (by omega), if_neg h3]
    split
    · rename_i hgt
      simp only [List.length_drop, List.length_append, List.length_cons, List.length_nil]
      omega
    · rename_i hle
      simp only [not_lt, List.length_append, List.length_cons, List.length_nil] at hle
      simp only [List.length_append, List.length_cons, List.length_nil]
      omega

theorem bounded_memory_amended_witness :
    (zscoreHistUpdate 2 [0, 10] 3).length ≤ 2 := by
  have hv : npVar [(0:ℚ), 10] ≠ 0 := by
    norm_num [npVar, npMean]
  exact bounded_memory_amended.2.2 2 [0, 10] 3 (by norm_num) (by norm_num) hv

/-- C4 as stated is false on two counts: the default main-ring capacity
is 10000, so 1001 events leave 1001 (not min(1001,1000) = 1000) in the
buffer; and the Z-Score history exceeds a configured capacity of 2 on a
constant input stream because the zero-variance path appends without
eviction. -/
theorem bounded_memory_cex :
    (addEvents ({} : WindowManagerState ℕ) (List.replicate 1001 0)).data_buffer.length
        = 1001 ∧
    (zscoreHistRun 2 [5, 5, 5]).length = 3 := by
  constructor
  · rw [addEvents_length _ _ (by simp)]
    simp only [List.length_nil, List.length_replicate]
    omega
  · have h1 : zscoreHistUpdate 2 [] 5 = [5] := by simp [zscoreHistUpdate]
    have h2 : zscoreHistUpdate 2 [5] 5 = [5, 5] := by simp [zscoreHistUpdate]
    have h3 : npVar [(5:ℚ), 5] = 0 := by norm_num [npVar, npMean]
    have h4 : zscoreHistUpdate 2 [5, 5] 5 = [5, 5, 5] := by
      simp [zscoreHistUpdate, h3]
    simp [zscoreHistRun, h1, h2, h4]

/-! ## Comprehensive detector (src/src/anomaly/comprehensive_detector.py) -/

/-- One firing rule produced by the four detection passes of
ComprehensiveAnomalyDetector.detect.  Every rule dictionary carries
is_anomaly=True, an anomaly_score, an anomaly_type and a severity; the
rule-specific payload keys are not read by the aggregation and are
omitted. -/
structure RuleAnomaly where
  is_anomaly : Bool := true
  anomaly_score : ℚ := 0
  anomaly_type : String := "unknown"
  severity : String := "warning"
deriving DecidableEq

/-- Python max(xs, key=lambda x: x.get("anomaly_score", 0)): scan left
to right, replacing the current maximum only on a strictly larger key,
so ties keep the earliest element. -/
def pyMaxByScore (head : RuleAnomaly) (rest : List RuleAnomaly) : RuleAnomaly :=
  rest.foldl (fun acc x => if acc.anomaly_score < x.anomaly_score then x else acc) head

/-- The dictionary ComprehensiveAnomalyDetector.detect returns.  In the
no-rule case the source dictionary carries only the first four keys;
the absent keys are modelled as none / [] / 0. -/
structure ComprehensiveResult where
  is_anomaly : Bool
  anomaly_score : ℚ
  anomaly_type : String
  severity : String
  details : Option RuleAnomaly := none
  all_anomalies : List RuleAnomaly := []
  anomaly_count : ℕ := 0
deriving DecidableEq

/-- The aggregation step of ComprehensiveAnomalyDetector.detect (lines
436-460), applied to the list of rules fired by the four passes. -/
def comprehensiveAggregate (all_anomalies : List RuleAnomaly) : ComprehensiveResult :=
  match all_anomalies with
  | [] =>
    { is_anomaly := false, anomaly_score := 0, anomaly_type := "normal",
      severity := "info", details := none }
  | a :: rest =>
    let critical_anomalies := (a :: rest).filter (fun x => x.severity = "critical")
    let max_score_anomaly :=
      match critical_anomalies with
      | c :: crest => pyMaxByScore c crest
      | [] => pyMaxByScore a rest
    { is_anomaly := true
      anomaly_score := max_score_anomaly.anomaly_score
      anomaly_type := max_score_anomaly.anomaly_type
      severity := max_score_anomaly.severity
      details := some max_score_anomaly
      all_anomalies := a :: rest
      anomaly_count := (a :: rest).length }

theorem pyMaxByScore_mem (h : RuleAnomaly) (rest : List RuleAnomaly) :
    pyMaxByScore h rest ∈ h :: rest := by
  induction rest generalizing h with
  | nil => simp [pyMaxByScore]
  | cons x t ih =>
    have step : pyMaxByScore h (x :: t) =
        pyMaxByScore (if h.anomaly_score < x.anomaly_score then x else h) t := rfl
    rw [step]
    have := ih (if h.anomaly_score < x.anomaly_score then x else h)
    rcases List.mem_cons.mp this with hh | ht
    · rw [hh]
      split
      · simp
      · simp
    · simp [ht]

theorem pyMaxByScore_le (h : RuleAnomaly) (rest : List RuleAnomaly) :
    ∀ x ∈ h :: rest, x.anomaly_score ≤ (pyMaxByScore h rest).anomaly_score := by
  induction rest generalizing h with
  | nil =>
    intro x hx
    simp only [List.mem_singleton] at hx
    simp [hx, pyMaxByScore]
  | cons y t ih =>
    intro x hx
    have step : pyMaxByScore h (y :: t) =
        pyMaxByScore (if h.anomaly_score < y.anomaly_score then y else h) t := rfl
    rw [step]
    have hhead : h.anomaly_score ≤
        (if h.anomaly_score < y.anomaly_score then y else h).anomaly_score := by
      split
      · rename_i hlt
        exact le_of_lt hlt
      · exact le_refl _
    have hy : y.anomaly_score ≤
        (if h.anomaly_score < y.anomaly_score then y else h).anomaly_score := by
      split
      · exact le_refl _
      · rename_i hnlt
        exact le_of_not_lt hnlt
    have hsel := ih (if h.anomaly_score < y.anomaly_score then y else h)
    rcases List.mem_cons.mp hx with rfl | hx2
    · exact le_trans hhead (hsel _ (List.mem_cons_self _ _))
    · rcases List.mem_cons.mp hx2 with rfl | hx3
      · exact le_trans hy (hsel _ (List.mem_cons_self _ _))
      · exact hsel x (List.mem_cons_of_mem _ hx3)

theorem comprehensive_aggregation (alls : List RuleAnomaly) :
    (alls = [] → comprehensiveAggregate alls =
        { is_anomaly := false, anomaly_score := 0, anomaly_type := "normal",
          severity := "info", details := none }) ∧
    (alls ≠ [] →
      (comprehensiveAggregate alls).is_anomaly = true ∧
      (comprehensiveAggregate alls).all_anomalies = alls ∧
      (comprehensiveAggregate alls).anomaly_count = alls.length ∧
      ∃ sel, (comprehensiveAggregate alls).details = some sel ∧
        (comprehensiveAggregate alls).anomaly_score = sel.anomaly_score ∧
        (comprehensiveAggregate alls).severity = sel.severity ∧
        (comprehensiveAggregate alls).anomaly_type = sel.anomaly_type ∧
        (alls.filter (fun x => x.severity = "critical") ≠ [] →
          sel ∈ alls.filter (fun x => x.severity = "critical") ∧
          ∀ x ∈ alls.filter (fun x => x.severity = "critical"),
            x.anomaly_score ≤ sel.anomaly_score) ∧
        (alls.filter (fun x => x.severity = "critical") = [] →
          sel ∈ alls ∧ ∀ x ∈ alls, x.anomaly_score ≤ sel.anomaly_score)) := by
  constructor
  · intro h
    rw [h]
    rfl
  · intro h
    match alls with
    | [] => exact absurd rfl h
    | a :: rest =>
      rcases hc : (a :: rest).filter (fun x => x.severity = "critical") with _ | ⟨c, crest⟩
      · refine ⟨?_, ?_, ?_, pyMaxByScore a rest, ?_, ?_, ?_, ?_, ?_, ?_⟩
        · simp [comprehensiveAggregate, hc]
        · simp [comprehensiveAggregate, hc]
        · simp [comprehensiveAggregate, hc]
        · simp [comprehensiveAggregate, hc]
        · simp [comprehensiveAggregate, hc]
        · simp [comprehensiveAggregate, hc]
        · simp [comprehensiveAggregate, hc]
        · intro hne
          exact absurd hc hne
        · intro _
          exact ⟨pyMaxByScore_mem a rest, pyMaxByScore_le a rest⟩
      · refine ⟨?_, ?_, ?_, pyMaxByScore c crest, ?_, ?_, ?_, ?_, ?_, ?_⟩
        · simp [comprehensiveAggregate, hc]
        · simp [comprehensiveAggregate, hc]
        · simp [comprehensiveAggregate, hc]
        · simp [comprehensiveAggregate, hc]
        · simp [comprehensiveAggregate, hc]
        · simp [comprehensiveAggregate, hc]
        · simp [comprehensiveAggregate, hc]
        · intro _
          rw [hc]
          exact ⟨pyMaxByScore_mem c crest, pyMaxByScore_le c crest⟩
        · intro heq
          rw [hc] at heq
          exact absurd heq (by simp)

/-- A sample firing warning rule, used to instantiate the aggregation
theorem. -/
def sampleWarningRule : RuleAnomaly :=
  { anomaly_score := 1/2, anomaly_type := "rps_spike", severity := "warning" }

/-- A sample firing critical rule, used to instantiate the aggregation
theorem. -/
def sampleCriticalRule : RuleAnomaly :=
  { anomaly_score := 1/4, anomaly_type := "rps_drop", severity := "critical" }

theorem comprehensive_aggregation_witness :
    comprehensiveAggregate [] =
      { is_anomaly := false, anomaly_score := 0, anomaly_type := "normal",
        severity := "info", details := none } ∧
    (comprehensiveAggregate [sampleWarningRule, sampleCriticalRule]).severity
      = "critical" := by
  constructor
  · exact (comprehensive_aggregation []).1 rfl
  · have h := (comprehensive_aggregation [sampleWarningRule, sampleCriticalRule]).2
      (by simp)
    obtain ⟨_, _, _, sel, _, _, hsev, _, hcrit, _⟩ := h
    have hfil : ([sampleWarningRule, sampleCriticalRule] : List RuleAnomaly).filter
        (fun x => x.severity = "critical") = [sampleCriticalRule] := by
      simp [List.filter, sampleWarningRule, sampleCriticalRule]
    have hs := (hcrit (by rw [hfil]; simp)).1
    rw [hfil] at hs
    simp only [List.mem_singleton] at hs
    rw [hsev, hs]
    rfl

/-! ## Change-point detector (src/src/anomaly/changepoint.py) -/

/-- The effective threshold multiplier: `threshold_multiplier or default`
in Python replaces both None and a passed 0.0 (falsy) by the default. -/
def cpMultiplier (tm : Option ℚ) (dflt : ℚ) : ℚ :=
  match tm with
  | some t => if t = 0 then dflt else t
  | none => dflt

/-- ChangePointDetector.detect_spike (lines 32-69). -/
def detectSpike (sensitivity min_change : ℚ) (window_size : ℕ)
    (tm : Option ℚ) (values : List ℚ) : Bool × ℤ :=
  if values.length < window_size * 2 then (false, -1)
  else
    let threshold_multiplier := cpMultiplier tm (1 + sensitivity)
    let prev_window := values.take window_size
    let current_window := values.drop (values.length - window_size)
    let prev_mean := npMean prev_window
    let current_mean := npMean current_window
    if prev_mean = 0 then (false, -1)
    else
      let change_ratio := (current_mean - prev_mean) / prev_mean
      if min_change < change_ratio ∧ prev_mean * threshold_multiplier < current_mean then
        (true, (values.length : ℤ) - window_size)
      else (false, -1)

/-- ChangePointDetector.detect_drop (lines 71-108). -/
def detectDrop (sensitivity min_change : ℚ) (window_size : ℕ)
    (tm : Option ℚ) (values : List ℚ) : Bool × ℤ :=
  if values.length < window_size * 2 then (false, -1)
  else
    let threshold_multiplier := cpMultiplier tm (1 - sensitivity)
    let prev_window := values.take window_size
    let current_window := values.drop (values.length - window_size)
    let prev_mean := npMean prev_window
    let current_mean := npMean current_window
    if prev_mean = 0 then (false, -1)
    else
      let change_ratio := |(current_mean - prev_mean) / prev_mean|
      if min_change < change_ratio ∧ current_mean < prev_mean * threshold_multiplier then
        (true, (values.length : ℤ) - window_size)
      else (false, -1)

/-- The total change score of detect_pattern_shift (lines 110-148); the
standard deviations make it a real number.  The literal 1e-10 is
modelled as the exact 10⁻¹⁰. -/
noncomputable def patternShiftTotalChange (window_size : ℕ) (values : List ℚ) : ℝ :=
  let prev_window := values.take window_size
  let current_window := values.drop (values.length - window_size)
  let mean_change : ℝ :=
    |(npMean current_window : ℝ) - (npMean prev_window : ℝ)| /
      ((npMean prev_window : ℝ) + 1/10^10)
  let std_change : ℝ :=
    |npStd current_window - npStd prev_window| / (npStd prev_window + 1/10^10)
  (mean_change + std_change) / 2

/-- detect_pattern_shift returns (True, len − window_size) exactly when
this proposition holds, and (False, −1) otherwise. -/
def patternShiftFires (min_change : ℚ) (window_size : ℕ) (values : List ℚ) : Prop :=
  ¬(values.length < window_size * 2) ∧
  (min_change : ℝ) < patternShiftTotalChange window_size values

/-- np.convolve in full mode on rational lists. -/
def npConvolveFull (a v : List ℚ) : List ℚ :=
  (List.range (a.length + v.length - 1)).map (fun k =>
    ((List.range a.length).map (fun j =>
      if j ≤ k ∧ k - j < v.length then a.getD j 0 * v.getD (k - j) 0 else 0)).sum)

/-- np.convolve mode='same': the centred max(M,N) slice of the full
convolution. -/
def npConvolveSame (a v : List ℚ) : List ℚ :=
  ((npConvolveFull a v).drop ((min a.length v.length - 1) / 2)).take
    (max a.length v.length)

/-- np.diff. -/
def npDiff (xs : List ℚ) : List ℚ :=
  List.zipWith (fun a b => b - a) xs xs.tail

/-- The deltas of the smoothed series in detect_smoothed_delta (lines
150-175): moving average by same-mode convolution with a uniform
kernel, then first differences. -/
def smoothedDeltas (smoothing_window : ℕ) (values : List ℚ) : List ℚ :=
  npDiff (npConvolveSame values
    (List.replicate smoothing_window (1 / (smoothing_window : ℚ))))

/-- The detection threshold of detect_smoothed_delta (lines 177-182):
mean plus sensitivity times standard deviation of the absolute deltas. -/
noncomputable def smoothedDeltaThreshold (sensitivity : ℚ) (smoothing_window : ℕ)
    (values : List ℚ) : ℝ :=
  let absDeltas := (smoothedDeltas smoothing_window values).map (fun d => |d|)
  (npMean absDeltas : ℝ) + (sensitivity : ℝ) * npStd absDeltas

/-- detect_smoothed_delta returns (True, last large index) exactly when
this proposition holds, i.e. when its own guard (fewer than
2·smoothing_window samples, not 2·window_size) passes, the delta array
is nonempty and some |delta| exceeds the threshold; it returns
(False, −1) otherwise. -/
def smoothedDeltaFires (sensitivity : ℚ) (smoothing_window : ℕ)
    (values : List ℚ) : Prop :=
  ¬(values.length < smoothing_window * 2) ∧
  smoothedDeltas smoothing_window values ≠ [] ∧
  ∃ i < (smoothedDeltas smoothing_window values).length,
    smoothedDeltaThreshold sensitivity smoothing_window values <
      |(((smoothedDeltas smoothing_window values).getD i 0 : ℚ) : ℝ)|

/-- C7 (amended): with fewer than 2·window_size samples, detect_spike,
detect_drop and detect_pattern_shift return not-detected; but
detect_smoothed_delta is guarded by its own smoothing window (default
10), so it is only guaranteed not-detected with fewer than
2·smoothing_window samples. -/
theorem changepoint_guard_amended (values : List ℚ) (sens mc : ℚ) (tm : Option ℚ)
    (ws sw : ℕ) :
    (values.length < ws * 2 →
      detectSpike sens mc ws tm values = (false, -1) ∧
      detectDrop sens mc ws tm values = (false, -1) ∧
      ¬ patternShiftFires mc ws values) ∧
    (values.length < sw * 2 → ¬ smoothedDeltaFires sens sw values) := by
  constructor
  · intro h
    refine ⟨?_, ?_, ?_⟩
    · simp [detectSpike, h]
    · simp [detectDrop, h]
    · intro hf
      exact hf.1 h
  · intro h hf
    exact hf.1 h

theorem changepoint_guard_amended_witness :
    detectSpike (3/10) (1/5) 50 none [1, 2, 3] = (false, -1) ∧
    detectDrop (3/10) (1/5) 50 none [1, 2, 3] = (false, -1) ∧
    ¬ patternShiftFires (1/5) 50 [1, 2, 3] ∧
    ¬ smoothedDeltaFires (3/10) 10 [1, 2, 3] := by
  have h := changepoint_guard_amended [1, 2, 3] (3/10) (1/5) none 50 10
  obtain ⟨h1, h2, h3⟩ := h.1 (by norm_num)
  exact ⟨h1, h2, h3, h.2 (by norm_num)⟩

/-- 21 samples, all zero except a single spike of height 10 at index
10: fewer than 2·window_size = 100 samples, yet detect_smoothed_delta
fires. -/
def cpCexValues : List ℚ := (List.range 21).map (fun i => if i = 10 then 10 else 0)

theorem cpCex_smoothedDeltas :
    smoothedDeltas 10 cpCexValues =
      ([0, 0, 0, 0, 0, 1, 0, 0, 0, 0, 0, 0, 0, 0, 0, -1, 0, 0, 0, 0] : List ℚ) := by
  norm_num [smoothedDeltas, npConvolveSame, npConvolveFull, npDiff, cpCexValues,
    List.range_succ]

theorem cpCex_absDeltas :
    (smoothedDeltas 10 cpCexValues).map (fun d => |d|) =
      ([0, 0, 0, 0, 0, 1, 0, 0, 0, 0, 0, 0, 0, 0, 0, 1, 0, 0, 0, 0] : List ℚ) := by
  rw [cpCex_smoothedDeltas]
  norm_num

theorem cpCex_threshold :
    smoothedDeltaThreshold (3/10) 10 cpCexValues = 19/100 := by
  unfold smoothedDeltaThreshold
  have hmean : npMean ((smoothedDeltas 10 cpCexValues).map (fun d => |d|)) = 1/10 := by
    rw [cpCex_absDeltas]
    norm_num [npMean]
  have hvar : npVar ((smoothedDeltas 10 cpCexValues).map (fun d => |d|)) = 9/100 := by
    rw [cpCex_absDeltas]
    norm_num [npVar, npMean]
  have hstd : npStd ((smoothedDeltas 10 cpCexValues).map (fun d => |d|)) = 3/10 := by
    unfold npStd
    rw [hvar]
    rw [show ((9/100 : ℚ) : ℝ) = (3/10)^2 by norm_num]
    rw [Real.sqrt_sq (by norm_num)]
  simp only [hmean, hstd]
  push_cast
  norm_num

/-- C7 as stated is false: detect_smoothed_delta guards on
2·smoothing_window (= 20 with the default smoothing window 10), not on
2·window_size (= 100 with the default window size 50); on 21 samples
holding a single spike it reports a change point. -/
theorem changepoint_guard_cex :
    cpCexValues.length < 50 * 2 ∧ smoothedDeltaFires (3/10) 10 cpCexValues := by
  refine ⟨by norm_num [cpCexValues], ?_, ?_, 5, ?_, ?_⟩
  · norm_num [cpCexValues]
  · rw [cpCex_smoothedDeltas]
    exact List.cons_ne_nil _ _
  · rw [cpCex_smoothedDeltas]
    norm_num
  · rw [cpCex_threshold, cpCex_smoothedDeltas]
    norm_num

/-! ## Z-score detector detect (src/src/anomaly/zscore_detector.py) -/

/-- The z-score ZScoreDetector.predict reports for a value against the
current history (lines 45-61): 0 with fewer than 2 samples or zero
standard deviation, else |value − mean| / std. -/
noncomputable def zscoreZ (history : List ℚ) (value : ℚ) : ℝ :=
  if history.length < 2 then 0
  else if npVar history = 0 then 0
  else |(value : ℝ) - (npMean history : ℝ)| / npStd history

/-- One entry of the details dictionary ZScoreDetector.detect builds per
feature. -/
structure ZDetail where
  is_anomaly : Prop
  z_score : ℝ
  value : ℚ

/-- The detail entry predict produces for a value against a history:
anomalous exactly on the normal path with z-score above the threshold. -/
noncomputable def zscoreDetailOf (threshold : ℚ) (history : List ℚ) (value : ℚ) :
    ZDetail :=
  { is_anomaly := ¬(history.length < 2) ∧ npVar history ≠ 0 ∧
      (threshold : ℝ) < zscoreZ history value
    z_score := zscoreZ history value
    value := value }

/-- features[name] on the assoc-list model of the feature dictionary. -/
def lookupFeature (features : List (String × PyVal)) (name : String) : Option PyVal :=
  (features.find? (fun p => p.1 == name)).map Prod.snd

/-- ZScoreDetector.detect (lines 90-142): iterate the feature names
(auto-detected as the numeric keys when none are given), calling
predict on each numeric feature value; every predict call reads and
then updates the one shared history of the detector instance.  Returns
the per-feature details in processing order together with the final
history.  (The top-level is_anomaly/anomaly_score of detect aggregate
these details and are not needed by any claim.) -/
noncomputable def zscoreDetect (threshold : ℚ) (window_size : ℕ) (history : List ℚ)
    (features : List (String × PyVal)) (feature_names : Option (List String)) :
    List (String × ZDetail) × List ℚ :=
  let names :=
    match feature_names with
    | some ns => ns
    | none => features.filterMap (fun (p : String × PyVal) =>
        match p.2 with
        | .pnum _ => some p.1
        | .pstr _ => none)
  names.foldl
    (fun acc name =>
      match lookupFeature features name with
      | none => acc
      | some (.pstr _) => acc
      | some (.pnum v) =>
        (acc.1 ++ [(name, zscoreDetailOf threshold acc.2 v)],
         zscoreHistUpdate window_size acc.2 v))
    ([], history)

/-- Replacing (or inserting) one feature's history in a per-feature
history table. -/
def updateAssoc (l : List (String × List ℚ)) (name : String) (h : List ℚ) :
    List (String × List ℚ) :=
  if l.any (fun p => p.1 == name) then
    l.map (fun p => if p.1 == name then (name, h) else p)
  else l ++ [(name, h)]

/-- Modelled from the spec: the per-feature Z-Score detect the
specification describes ("Z-Score: per-feature history (default 100
values)"), in which each named feature's z-score is computed against
that feature's own separately-kept history only.  This definition
follows the spec's words, to be compared with zscoreDetect, the
detector of the source. -/
noncomputable def zscoreDetectPerFeatureSpec (threshold : ℚ) (window_size : ℕ)
    (histories : List (String × List ℚ))
    (features : List (String × PyVal)) (feature_names : Option (List String)) :
    List (String × ZDetail) × List (String × List ℚ) :=
  let names :=
    match feature_names with
    | some ns => ns
    | none => features.filterMap (fun (p : String × PyVal) =>
        match p.2 with
        | .pnum _ => some p.1
        | .pstr _ => none)
  names.foldl
    (fun acc name =>
      match lookupFeature features name with
      | none => acc
      | some (.pstr _) => acc
      | some (.pnum v) =>
        let h := ((acc.2.find? (fun (p : String × List ℚ) => p.1 == name)).map
          Prod.snd).getD []
        (acc.1 ++ [(name, zscoreDetailOf threshold h v)],
         updateAssoc acc.2 name (zscoreHistUpdate window_size h v)))
    ([], histories)

/-- C8 (amended): the Z-Score detector keeps a single history shared by
all features: in one detect call over two numeric features, the second
feature's z-score is computed against the shared history that already
contains the first feature's value, and the final history is the shared
left-to-right fold of both values. -/
theorem zscore_detect_shared_history (threshold : ℚ) (ws : ℕ) (h : List ℚ)
    (n₁ n₂ : String) (v₁ v₂ : ℚ) (hne : n₁ ≠ n₂) :
    (zscoreDetect threshold ws h
        [(n₁, .pnum v₁), (n₂, .pnum v₂)] (some [n₁, n₂])).1 =
      [(n₁, zscoreDetailOf threshold h v₁),
       (n₂, zscoreDetailOf threshold (zscoreHistUpdate ws h v₁) v₂)] ∧
    (zscoreDetect threshold ws h
        [(n₁, .pnum v₁), (n₂, .pnum v₂)] (some [n₁, n₂])).2 =
      zscoreHistUpdate ws (zscoreHistUpdate ws h v₁) v₂ := by
  unfold zscoreDetect lookupFeature
  have hbe : (n₁ == n₂) = false := beq_eq_false_iff_ne.mpr hne
  simp [List.find?, hbe]

theorem zscore_detect_shared_history_witness :
    (zscoreDetect 3 100 []
        [("x", .pnum 0), ("y", .pnum 10)] (some ["x", "y"])).1 =
      [("x", zscoreDetailOf 3 [] 0),
       ("y", zscoreDetailOf 3 (zscoreHistUpdate 100 [] 0) 10)] :=
  (zscore_detect_shared_history 3 100 [] "x" "y" 0 10 (by decide)).1

theorem zscoreZ_mixed_history : zscoreZ [0, 10] 0 = 1 := by
  have hvar : npVar [(0:ℚ), 10] = 25 := by norm_num [npVar, npMean]
  have hstd : npStd [(0:ℚ), 10] = 5 := by
    unfold npStd
    rw [hvar, show ((25:ℚ):ℝ) = 5^2 by norm_num, Real.sqrt_sq (by norm_num)]
  have hmean : npMean [(0:ℚ), 10] = 5 := by norm_num [npMean]
  rw [zscoreZ, if_neg (by norm_num), if_neg (by rw [hvar]; norm_num), hstd, hmean]
  norm_num

/-- The feature map of the per-feature counterexample: three numeric
features observed in one detect call. -/
def zCexFeatures : List (String × PyVal) :=
  [("a", .pnum 0), ("b", .pnum 10), ("c", .pnum 0)]

/-- Default entry for positional access in the counterexample. -/
noncomputable def zCexDefault : String × ZDetail := ("", zscoreDetailOf 3 [] 0)

/-- C8 as stated is false: within one detect call over the features
a=0, b=10, c=0, the source detector reports z-score 1 for feature c
(third detail entry) because its single shared history already holds
the values of a and b, while the per-feature detector described by the
specification reports 0 for c, whose own history is empty. -/
theorem zscore_per_feature_cex :
    ((zscoreDetect 3 100 [] zCexFeatures none).1.getD 2 zCexDefault).1 = "c" ∧
    ((zscoreDetect 3 100 [] zCexFeatures none).1.getD 2 zCexDefault).2.z_score = 1 ∧
    ((zscoreDetectPerFeatureSpec 3 100 [] zCexFeatures none).1.getD 2
        zCexDefault).1 = "c" ∧
    ((zscoreDetectPerFeatureSpec 3 100 [] zCexFeatures none).1.getD 2
        zCexDefault).2.z_score = 0 := by
  have h2 : zscoreHistUpdate 100 [0] 10 = [0, 10] := by simp [zscoreHistUpdate]
  refine ⟨rfl, ?_, rfl, ?_⟩
  · show zscoreZ (zscoreHistUpdate 100 [0] 10) 0 = 1
    rw [h2]
    exact zscoreZ_mixed_history
  · show zscoreZ [] 0 = 0
    simp [zscoreZ]

/-! ## Feature engineering (src/src/feature/feature_engineering.py) -/

/-- An event as seen by the feature engineer.  `timestamp = some t`
models a timestamp string that parses in the canonical format, with t
its epoch value in seconds; `none` models an absent or malformed
timestamp (strptime failure).  Numeric metric fields live in the
`fields` association list. -/
structure FEvent where
  timestamp : Option ℚ := none
  status_code : Option PyVal := none
  fields : List (String × PyVal) := []
deriving DecidableEq

/-- Python max() of a nonempty list (the empty case is never reached
behind the length guards). -/
def listMax (xs : List ℚ) : ℚ :=
  match xs with
  | [] => 0
  | h :: t => t.foldl max h

/-- Python min() of a nonempty list. -/
def listMin (xs : List ℚ) : ℚ :=
  match xs with
  | [] => 0
  | h :: t => t.foldl min h

/-- FeatureEngineer.calculate_rps (lines 24-61). -/
def calculateRps (events : List FEvent) (time_window : ℚ) : ℚ :=
  if events = [] then 0
  else if events.length < 2 then 1
  else
    let timestamps := events.filterMap FEvent.timestamp
    if timestamps.length < 2 then (events.length : ℚ) / time_window
    else
      let time_span := listMax timestamps - listMin timestamps
      if time_span = 0 then (events.length : ℚ) / time_window
      else (events.length : ℚ) / max time_span time_window

/-- FeatureEngineer.calculate_error_rate (lines 63-89); an absent
status_code defaults to 200 and counts as a non-error. -/
def calculateErrorRate (events : List FEvent) : ℚ :=
  if events = [] then 0
  else
    let counts := events.foldl
      (fun (acc : ℕ × ℕ) e =>
        match e.status_code.getD (PyVal.pnum 200) with
        | .pnum q => (acc.1 + (if 400 ≤ q then 1 else 0), acc.2 + 1)
        | .pstr _ => acc)
      (0, 0)
    if counts.2 = 0 then 0 else (counts.1 : ℚ) / (counts.2 : ℚ)

/-- np.min of a nonempty array. -/
def npMin (xs : List ℚ) : ℚ := listMin xs

/-- np.max of a nonempty array. -/
def npMax (xs : List ℚ) : ℚ := listMax xs

/-- np.median: middle of the sorted array, averaging the two middle
elements on even length. -/
def npMedian (xs : List ℚ) : ℚ :=
  let sorted := xs.insertionSort (· ≤ ·)
  let n := xs.length
  if n % 2 = 1 then sorted.getD (n / 2) 0
  else (sorted.getD (n / 2 - 1) 0 + sorted.getD (n / 2) 0) / 2

/-- The EMA recursion of FeatureEngineer.calculate_ema (lines 137-143):
ema[i] = alpha * v[i] + (1 - alpha) * ema[i-1]. -/
def emaFold (alpha prev : ℚ) : List ℚ → List ℚ
  | [] => []
  | v :: t =>
    let cur := alpha * v + (1 - alpha) * prev
    cur :: emaFold alpha cur t

/-- FeatureEngineer.calculate_ema with the window-derived smoothing
factor alpha = 2 / (window + 1), seeded from the first value. -/
def calculateEma (window : ℕ) (values : List ℚ) : List ℚ :=
  match values with
  | [] => []
  | v0 :: rest => v0 :: emaFold (2 / ((window : ℚ) + 1)) v0 rest

/-- The last entry of calculate_rolling_stats(values)["mean"] as
extract_features reads it: with fewer samples than the window the whole
array is filled with the overall mean; otherwise the centred pandas
window at the last index is incomplete (min_periods = window), giving
NaN filled with the overall mean again.  The degenerate window ≤ 1
(never used: extract_features always passes the instance window, default
100) is elided. -/
def rollingMeanLast (_window : ℕ) (values : List ℚ) : ℚ := npMean values

/-- The last entry of calculate_rolling_stats(values)["std"]: the
population np.std below the window length, else the NaN at the
incomplete last centred window filled with the pandas sample standard
deviation (ddof = 1). -/
noncomputable def rollingStdLast (window : ℕ) (values : List ℚ) : ℝ :=
  if values.length < window then npStd values
  else Real.sqrt (((values.map (fun x => (x - npMean values) ^ 2)).sum : ℚ) /
    ((values.length : ℚ) - 1))

/-- The last entry of calculate_spike_score (lines 181-213): the
z-score of the newest value against the rolling mean/std, 0 when the
std is not positive. -/
noncomputable def spikeScoreLast (window : ℕ) (values : List ℚ) : ℝ :=
  if values.length < 2 then 0
  else
    let m := rollingMeanLast window values
    let sd := rollingStdLast window values
    if 0 < sd then ((values.getLastD 0 : ℝ) - (m : ℝ)) / sd else 0

/-- The per-field block of extract_features (lines 244-272): skip a
field absent from the first event; collect the numeric values of the
field; skip when none are numeric; emit the five basic statistics and,
with at least 2 samples, the rolling/spike/EMA features read at the
last index. -/
noncomputable def fieldFeatures (window : ℕ) (events : List FEvent) (field : String) :
    List (String × ℝ) :=
  if ¬ ((events.headD {}).fields.any (fun p => p.1 == field)) then []
  else
    let values := events.filterMap (fun e =>
      match (e.fields.find? (fun p => p.1 == field)).map Prod.snd with
      | some (.pnum q) => some q
      | _ => none)
    if values = [] then []
    else
      [(field ++ "_mean", (npMean values : ℝ)),
       (field ++ "_std", npStd values),
       (field ++ "_min", (npMin values : ℝ)),
       (field ++ "_max", (npMax values : ℝ)),
       (field ++ "_median", (npMedian values : ℝ))] ++
      (if 2 ≤ values.length then
        [(field ++ "_rolling_mean", (rollingMeanLast window values : ℝ)),
         (field ++ "_rolling_std", rollingStdLast window values),
         (field ++ "_spike_score", spikeScoreLast window values),
         (field ++ "_ema", ((calculateEma window values).getLastD 0 : ℝ))]
      else [])

/-- FeatureEngineer.extract_features (lines 215-274): the empty event
list yields the empty feature map; otherwise the base rps, error_rate
and event_count features followed by the per-field features of the
requested (or default) fields. -/
noncomputable def extractFeatures (window : ℕ) (events : List FEvent)
    (fields : Option (List String)) : List (String × ℝ) :=
  if events = [] then []
  else
    let fields := fields.getD ["response_time", "cpu_usage", "memory_usage"]
    [("rps", (calculateRps events 1 : ℝ)),
     ("error_rate", (calculateErrorRate events : ℝ)),
     ("event_count", (events.length : ℝ))] ++
    fields.foldl (fun acc f => acc ++ fieldFeatures window events f) []

/-- C9: rps on the empty list is 0; extract_features on the empty list
is the empty map; with at least 2 parseable timestamps and a nonzero
span, rps = count / max(span, time_window) at the default
time_window = 1; in every other case (single event, fewer than 2
parseable timestamps, zero span) rps = count / 1. -/
theorem rps_and_empty_features (events : List FEvent) :
    calculateRps [] 1 = 0 ∧
    extractFeatures 100 [] none = [] ∧
    (2 ≤ (events.filterMap FEvent.timestamp).length →
      listMax (events.filterMap FEvent.timestamp) -
          listMin (events.filterMap FEvent.timestamp) ≠ 0 →
      calculateRps events 1 = (events.length : ℚ) /
        max (listMax (events.filterMap FEvent.timestamp) -
          listMin (events.filterMap FEvent.timestamp)) 1) ∧
    (events ≠ [] →
      (events.length = 1 ∨ (events.filterMap FEvent.timestamp).length < 2 ∨
        listMax (events.filterMap FEvent.timestamp) -
          listMin (events.filterMap FEvent.timestamp) = 0) →
      calculateRps events 1 = (events.length : ℚ) / 1) := by
  refine ⟨by simp [calculateRps], by simp [extractFeatures], ?_, ?_⟩
  · intro hts hspan
    have hlen : 2 ≤ events.length :=
      le_trans hts (List.length_filterMap_le _ _)
    have hne : events ≠ [] := by
      intro h
      rw [h] at hlen
      simp at hlen
    simp only [calculateRps]
    rw [if_neg hne, if_neg (by omega), if_neg (by omega), if_neg hspan]
  · intro hne hcases
    by_cases hl : events.length < 2
    · have h1 : events.length = 1 := by
        have h0 : 0 < events.length := List.length_pos.mpr hne
        omega
      simp only [calculateRps]
      rw [if_neg hne, if_pos hl, h1]
      norm_num
    · rcases hcases with h1 | hts | hspan
      · omega
      · simp only [calculateRps]
        rw [if_neg hne, if_neg hl, if_pos hts]
      · by_cases hts : (events.filterMap FEvent.timestamp).length < 2
        · simp only [calculateRps]
          rw [if_neg hne, if_neg hl, if_pos hts]
        · simp only [calculateRps]
          rw [if_neg hne, if_neg hl, if_neg hts, if_pos hspan]

/-- A parseable event at epoch 0 for the rps witness. -/
def fevA : FEvent := { timestamp := some 0 }

/-- A parseable event at epoch 5 for the rps witness. -/
def fevB : FEvent := { timestamp := some 5 }

theorem rps_and_empty_features_witness :
    calculateRps [fevA, fevB] 1 = 2 / max 5 1 ∧
    calculateRps [fevA] 1 = 1 / 1 := by
  have hfm : ([fevA, fevB].filterMap FEvent.timestamp) = [0, 5] := by
    simp [fevA, fevB]
  have hmax : listMax ([fevA, fevB].filterMap FEvent.timestamp) = 5 := by
    rw [hfm]
    norm_num [listMax]
  have hmin : listMin ([fevA, fevB].filterMap FEvent.timestamp) = 0 := by
    rw [hfm]
    norm_num [listMin]
  constructor
  · have h := (rps_and_empty_features [fevA, fevB]).2.2.1
      (by rw [hfm]; norm_num) (by rw [hmax, hmin]; norm_num)
    rw [hmax, hmin] at h
    simpa using h
  · have h := (rps_and_empty_features [fevA]).2.2.2 (by simp)
      (Or.inl (by simp))
    simpa using h
